import Mathlib

/-!
Shallow embedding of the device worker pool of `api/onnx_web/worker/pool.py`
(`DevicePoolExecutor`), together with theorems checking the natural-language
specification of the scheduler against the code.

Conventions of the embedding:
* Python dicts become association lists with first-match lookup and
  replace-or-append assignment (`alookup` / `aset`), mirroring insertion
  order and key uniqueness of `dict`.
* `multiprocessing.Queue` becomes a `PQueue`: an identity (`qid`, standing
  for the Python object identity of the queue, so that "the same queue is
  reused" is expressible) plus the list of queued job keys; `put` appends,
  `qsize` is the length.
* A `Process` object becomes a `Nat` identifier drawn from a fresh counter,
  so "every worker is replaced" is expressible.
* Python code that raises an uncaught exception is embedded as `Option`
  (`none` = the call raises); exceptions swallowed by the listener loops'
  `except Exception` handlers leave the state as it was at the raise point.
-/

namespace OnnxWebPool

/-- Association-list lookup, mirroring Python `d[k]` / `k in d` on a dict
whose keys are unique (first match). -/
def alookup {α : Type} (l : List (String × α)) (k : String) : Option α :=
  (l.find? (fun p => p.1 = k)).map (fun p => p.2)

/-- Association-list assignment, mirroring Python `d[k] = v`: replace the
existing binding in place, else append a new one. -/
def aset {α : Type} (l : List (String × α)) (k : String) (v : α) :
    List (String × α) :=
  match l with
  | [] => [(k, v)]
  | (k2, v2) :: t => if k2 = k then (k, v) :: t else (k2, v2) :: aset t k v

/-- Association-list deletion, mirroring Python `del d[k]`. -/
def adel {α : Type} (l : List (String × α)) (k : String) :
    List (String × α) :=
  l.filter (fun p => ¬ (p.1 = k))

/-! ## `get_next_device`

The Python code builds `jobs = Counter(range(len(self.devices)))` and then
calls `jobs.update([qsize list])`.  `Counter(range(n))` counts the elements
`0, …, n-1` once each, and `Counter.update` with a *list* argument counts the
list's **elements** — so each queue length `q` increments the count of the
key `q`, rather than adding `q` to a device's count.  The multiset of counts
is therefore: key `k` has count `(1 if k < n else 0) + (number of devices
whose queue length is k)`.

`most_common()` sorts the items by count, descending and stably, so
`queued[-1][1]` is the minimal count; the code then collects *all* keys with
that count, sorts them, and returns the least.  Sorting makes the insertion
order irrelevant: the result is exactly the least key attaining the minimal
count, which is what `counterPick` computes. -/

/-- The count the Python `Counter` holds for key `k`, where `n` is the number
of devices and `qs` the list of per-device queue lengths:
`Counter(range(n))` contributes `1` for `k < n`, and `update(qs)` adds one
per device whose queue length equals `k`. -/
def counterCount (n : Nat) (qs : List Nat) (k : Nat) : Nat :=
  (if k < n then 1 else 0) + qs.count k

/-- The keys present in the Python `Counter`: `range(n)` plus every queue
length that occurs in `qs`. -/
def counterKeys (n : Nat) (qs : List Nat) : List Nat :=
  (List.range n ++ qs).dedup

/-- The un-pinned branch of `get_next_device`: the least `Counter` key whose
count is minimal (`queued[-1][1]` is the minimal count since `most_common()`
sorts by count descending; `lowest_devices` is every key at that count,
sorted, and index `[0]` takes the least).  `none` models the `IndexError`
raised by `queued[-1]` when there are no devices at all. -/
def counterPick (qs : List Nat) : Option Nat :=
  match ((counterKeys qs.length qs).map (counterCount qs.length qs)).min? with
  | none => none
  | some m =>
    ((counterKeys qs.length qs).filter
      (fun k => counterCount qs.length qs k = m)).min?

/-- `DevicePoolExecutor.get_next_device`.  `devices` is the list of device
names (`d.device` for each configured `DeviceParams`), `qs` the list
`[self.pending[d.device].qsize() for d in self.devices]`, and `needs` the
optional `needs_device` pin.  A pin matching some device name returns the
first matching index; otherwise the `Counter` path runs. -/
def get_next_device (devices : List String) (qs : List Nat)
    (needs : Option String) : Option Nat :=
  match needs with
  | some nd =>
    match devices.findIdx? (fun d => d = nd) with
    | some i => some i
    | none => counterPick qs
  | none => counterPick qs

/-! ## Pool state

`DevicePoolExecutor`'s mutable fields, with a job reduced to its string key
(the callable and its arguments are opaque to the scheduler). -/

/-- A `multiprocessing.Queue` of pending jobs: `qid` stands for the Python
object identity of the queue (so reuse of the *same* queue across a recycle
is expressible) and `jobs` for its FIFO contents, by job key. -/
structure PQueue where
  qid : Nat
  jobs : List String
deriving DecidableEq, Repr

/-- `WorkerContext` as the pool sees it: the per-device shared cancel flag
(`Value("B", False)` at creation) and the identity of the pending queue the
context was bound to.  Modelled from the spec: the source of
`worker/context.py` is absent; per the spec the context "owns the
cancellation flag", `set_cancel` sets it and `cancel.value` reads it. -/
structure WorkerContext where
  cancelFlag : Bool
  pendingQid : Nat
deriving DecidableEq, Repr

/-- `WorkerContext.set_cancel`.  Modelled from the spec: sets the device's
cancellation flag (the flag is shared with the worker process; the pool only
ever sets it to true here). -/
def WorkerContext.set_cancel (c : WorkerContext) : WorkerContext :=
  { c with cancelFlag := true }

/-- The mutable state of a `DevicePoolExecutor`.  `devices` holds the
configured device names in order; `nextWorker` and `nextQid` are fresh-name
counters standing for allocation of new `Process` and `Queue` objects. -/
structure PoolState where
  devices : List String
  max_jobs_per_worker : Nat
  context : List (String × WorkerContext)
  pending : List (String × PQueue)
  workers : List (String × Option Nat)
  active_jobs : List (String × String × Nat)
  cancelled_jobs : List String
  finished_jobs : List (String × Nat × Bool)
  total_jobs : Nat
  nextWorker : Nat
  nextQid : Nat
deriving DecidableEq, Repr

/-- `DevicePoolExecutor.create_device_worker`: reuse the device's pending
queue when one exists (`# reuse the queue if possible, to keep queued jobs`),
else create a fresh empty queue; then bind a fresh `WorkerContext` (cancel
flag starts false) and a fresh worker process to that queue. -/
def create_device_worker (s : PoolState) (name : String) : PoolState :=
  match alookup s.pending name with
  | some q =>
    { s with
      context := aset s.context name ⟨false, q.qid⟩
      workers := aset s.workers name (some s.nextWorker)
      nextWorker := s.nextWorker + 1 }
  | none =>
    { s with
      pending := aset s.pending name ⟨s.nextQid, []⟩
      context := aset s.context name ⟨false, s.nextQid⟩
      workers := aset s.workers name (some s.nextWorker)
      nextWorker := s.nextWorker + 1
      nextQid := s.nextQid + 1 }

/-- `DevicePoolExecutor.__init__` restricted to the scheduler state: empty
maps and counters, then one `create_device_worker` per configured device.
(The logger/progress/finished listener threads carry no scheduler state of
their own; their message handling is `progress_step` / `finished_step`.) -/
def init (devices : List String) (max_jobs_per_worker : Nat) : PoolState :=
  devices.foldl create_device_worker
    { devices := devices
      max_jobs_per_worker := max_jobs_per_worker
      context := []
      pending := []
      workers := []
      active_jobs := []
      cancelled_jobs := []
      finished_jobs := []
      total_jobs := 0
      nextWorker := 0
      nextQid := 0 }

/-- `DevicePoolExecutor.recycle`: the first loop sets every entry of
`self.workers` to `None` (terminating the processes), then
`create_device_worker` runs again for every configured device. -/
def recycle (s : PoolState) : PoolState :=
  s.devices.foldl create_device_worker
    { s with workers := s.workers.map (fun p => (p.1, (none : Option Nat))) }

/-- The second half of `DevicePoolExecutor.submit`: gather each configured
device's queue length, pick a device index via `get_next_device`, and append
the job to the chosen device's pending queue (`put` on an unbounded queue
never blocks).  `none` models an uncaught exception (no devices configured,
or a device name missing from `pending`). -/
def enqueue_job (s : PoolState) (key : String) (needs : Option String) :
    Option PoolState :=
  match (s.devices.mapM (fun d => (alookup s.pending d).map PQueue.jobs)) with
  | none => none
  | some queues =>
    match get_next_device s.devices (queues.map List.length) needs with
    | none => none
    | some idx =>
      match s.devices[idx]? with
      | none => none
      | some name =>
        match alookup s.pending name with
        | none => none
        | some q =>
          some { s with
            pending := aset s.pending name { q with jobs := q.jobs ++ [key] } }

/-- `DevicePoolExecutor.submit` for a job with key `key` and optional device
pin `needs`: bump `total_jobs`; when the bumped counter exceeds
`max_jobs_per_worker`, recycle the pool and reset the counter to zero; then
pick a device and enqueue (`enqueue_job`). -/
def submit (s : PoolState) (key : String) (needs : Option String) :
    Option PoolState :=
  if s.total_jobs + 1 > s.max_jobs_per_worker then
    enqueue_job
      { recycle { s with total_jobs := s.total_jobs + 1 } with total_jobs := 0 }
      key needs
  else
    enqueue_job { s with total_jobs := s.total_jobs + 1 } key needs

/-- One iteration of the progress listener thread
(`create_progress_worker`) on a message `(job, device, value)`: record
`active_jobs[job] = (device, value)`, and if the job is in
`cancelled_jobs`, set the device context's cancel flag.  A missing device
context raises a `KeyError` that the loop's `except Exception` swallows,
leaving the `active_jobs` write in place. -/
def progress_step (s : PoolState) (job device : String) (value : Nat) :
    PoolState :=
  if job ∈ s.cancelled_jobs then
    match alookup s.context device with
    | some ctx =>
      { s with
        active_jobs := aset s.active_jobs job (device, value)
        context := aset s.context device ctx.set_cancel }
    | none =>
      { s with active_jobs := aset s.active_jobs job (device, value) }
  else { s with active_jobs := aset s.active_jobs job (device, value) }

/-- One iteration of the finished listener thread
(`create_finished_worker`) on a message `(job, device)`: look up the
device's context and the job's last progress, append
`(job, progress, context.cancel.value)` to `finished_jobs` and delete the
job from `active_jobs`.  When `job` is not in `active_jobs` (or `device`
not in `context`), the lookup raises a `KeyError` that the loop's
`except Exception` swallows: nothing is appended and the state is
unchanged. -/
def finished_step (s : PoolState) (job device : String) : PoolState :=
  match alookup s.context device with
  | none => s
  | some ctx =>
    match alookup s.active_jobs job with
    | none => s
    | some (_dev, progress) =>
      { s with
        finished_jobs := s.finished_jobs ++ [(job, progress, ctx.cancelFlag)]
        active_jobs := adel s.active_jobs job }

/-- `DevicePoolExecutor.cancel`: always append the key to `cancelled_jobs`
and return `True`; when the key is active, also set its device's cancel flag
immediately.  `none` models the uncaught `KeyError` when the active entry
names a device with no context. -/
def cancel (s : PoolState) (key : String) : Option (PoolState × Bool) :=
  match alookup s.active_jobs key with
  | none =>
    some ({ s with cancelled_jobs := s.cancelled_jobs ++ [key] }, true)
  | some (device, _p) =>
    match alookup s.context device with
    | none => none
    | some ctx =>
      some ({ s with
        cancelled_jobs := s.cancelled_jobs ++ [key]
        context := aset s.context device ctx.set_cancel }, true)

/-- `DevicePoolExecutor.done`: first scan `finished_jobs` for the key, then
fall back to `active_jobs`, else report `(None, 0)`.  The tri-state first
component is `some true` / `some false` / `none` for Python
`True` / `False` / `None`. -/
def done (s : PoolState) (key : String) : Option Bool × Nat :=
  match s.finished_jobs.find? (fun r => r.1 = key) with
  | some r => (some true, r.2.1)
  | none =>
    match alookup s.active_jobs key with
    | none => (none, 0)
    | some (_d, progress) => (some false, progress)

/-- `DevicePoolExecutor.status`: the comprehension
`for name, _device, progress in self.active_jobs.items()` unpacks each
2-tuple `(key, (device, progress))` into three names, which raises
`ValueError` as soon as `active_jobs` has an entry; with `active_jobs`
empty it yields `[]` and the finished entries are appended.  `none` models
the raise. -/
def status (s : PoolState) :
    Option (List (String × Nat × Bool × Bool)) :=
  match s.active_jobs with
  | _ :: _ => none
  | [] =>
    some (s.finished_jobs.map (fun r => (r.1, r.2.1, true, r.2.2)))

/-- True exactly when a `workers` lookup found a live (non-`None`) process
entry. -/
def isLiveWorker (o : Option (Option Nat)) : Bool :=
  match o with
  | some (some _) => true
  | _ => false

/-- A concrete pool for exercising `done`: job `a` has a finished record
with progress 5 and job `b` is active on `gpu0` with progress 3. -/
def doneDemoState : PoolState :=
  ⟨["gpu0"], 10, [("gpu0", ⟨false, 0⟩)], [("gpu0", ⟨0, []⟩)],
    [("gpu0", some 0)], [("b", ("gpu0", 3))], [], [("a", 5, false)], 2, 1, 1⟩

/-- A concrete pool for exercising cooperative cancellation: job `a` is
queued on `gpu0` and has produced no progress update yet. -/
def cancelDemoState : PoolState :=
  ⟨["gpu0"], 10, [("gpu0", ⟨false, 0⟩)], [("gpu0", ⟨0, ["a"]⟩)],
    [("gpu0", some 0)], [], [], [], 1, 1, 1⟩

/-- A concrete pool for exercising the shared per-device cancel flag: jobs
`A` and `k` are both active on `gpu0`. -/
def sharedFlagDemoState : PoolState :=
  ⟨["gpu0"], 10, [("gpu0", ⟨false, 0⟩)], [("gpu0", ⟨0, []⟩)],
    [("gpu0", some 0)], [("A", ("gpu0", 2)), ("k", ("gpu0", 5))], [], [],
    2, 1, 1⟩

/-- The pool of `sharedFlagDemoState` right after `cancel("A")`: the shared
cancel flag of `gpu0` is set. -/
def sharedFlagDemoState1 : PoolState :=
  ⟨["gpu0"], 10, [("gpu0", ⟨true, 0⟩)], [("gpu0", ⟨0, []⟩)],
    [("gpu0", some 0)], [("A", ("gpu0", 2)), ("k", ("gpu0", 5))], ["A"], [],
    2, 1, 1⟩

/-- A concrete pool for exercising `recycle`: two jobs queued on `gpu0`. -/
def recycleDemoState : PoolState :=
  ⟨["gpu0"], 10, [("gpu0", ⟨false, 0⟩)], [("gpu0", ⟨0, ["a", "b"]⟩)],
    [("gpu0", some 0)], [], [], [], 0, 1, 1⟩

/-! ## Helper lemmas -/

theorem alookup_aset_self {α : Type} (l : List (String × α)) (k : String)
    (v : α) : alookup (aset l k v) k = some v := by
  induction l with
  | nil => simp [aset, alookup]
  | cons p t ih =>
    obtain ⟨k2, v2⟩ := p
    by_cases hk : k2 = k
    · simp [aset, hk, alookup]
    · simp only [aset, if_neg hk, alookup, List.find?_cons,
        show (decide (k2 = k)) = false by simp [hk]]
      exact ih

theorem alookup_aset_ne {α : Type} (l : List (String × α)) (k k2 : String)
    (v : α) (hne : k2 ≠ k) : alookup (aset l k v) k2 = alookup l k2 := by
  induction l with
  | nil => simp [aset, alookup, List.find?_cons, Ne.symm hne]
  | cons p t ih =>
    obtain ⟨k3, v3⟩ := p
    by_cases hk : k3 = k
    · subst hk
      simp [aset, alookup, List.find?_cons, Ne.symm hne]
    · simp only [aset, if_neg hk]
      simp only [alookup, List.find?_cons] at ih ⊢
      by_cases hk2 : k3 = k2
      · simp [hk2]
      · simp only [show (decide (k3 = k2)) = false by simp [hk2]]
        exact ih

theorem nat_min?_iff {l : List Nat} {m : Nat} :
    l.min? = some m ↔ m ∈ l ∧ ∀ b ∈ l, m ≤ b :=
  List.min?_eq_some_iff (fun a => Nat.le_refl a) (fun a b => min_choice a b)
    (fun _ _ _ => le_min_iff)

theorem findIdx?_lt_length {α : Type} {p : α → Bool} :
    ∀ {l : List α} {j : Nat}, List.findIdx? p l = some j → j < l.length := by
  intro l
  induction l with
  | nil => intro j h; simp [List.findIdx?_nil] at h
  | cons x xs ih =>
    intro j h
    rw [List.findIdx?_cons] at h
    by_cases hp : p x = true
    · simp [hp] at h
      simp [← h]
    · simp [hp] at h
      obtain ⟨a, ha, rfl⟩ := h
      have := ih ha
      simp
      omega

/-- The occurrences in `l` of the members of a finite set of values cannot
outnumber the elements of `l`. -/
theorem sum_count_le_length (S : Finset Nat) (l : List Nat) :
    (∑ a ∈ S, l.count a) ≤ l.length := by
  induction l with
  | nil => simp
  | cons x t ih =>
    have hstep : (∑ a ∈ S, (x :: t).count a)
        = (∑ a ∈ S, t.count a) + (∑ a ∈ S, if x = a then 1 else 0) := by
      rw [← Finset.sum_add_distrib]
      refine Finset.sum_congr rfl (fun a _ => ?_)
      rw [List.count_cons]
      simp [beq_iff_eq]
    rw [hstep, Finset.sum_ite_eq]
    simp only [List.length_cons]
    by_cases hx : x ∈ S <;> simp [hx] <;> omega

/-- The result of the `Counter` path of `get_next_device` is a valid device
index even though the `Counter`'s keys mix the indices `0, …, n-1` with the
observed queue lengths: a key `r ≥ n` can be the unique minimum only if
every index below `n` also occurs in `qs` at least `m ≥ 1` times alongside
`m` occurrences of `r`, which needs more than `n` devices. -/
theorem counterPick_lt_length {qs : List Nat} {r : Nat}
    (hq : qs ≠ []) (h : counterPick qs = some r) : r < qs.length := by
  unfold counterPick at h
  set n := qs.length with hn
  set keys := counterKeys n qs with hkeys
  have hn0 : 0 < n := List.length_pos.mpr hq
  have h0mem : 0 ∈ keys := by
    rw [hkeys]
    unfold counterKeys
    rw [List.mem_dedup]
    exact List.mem_append_left _ (List.mem_range.mpr hn0)
  rcases hmin : (keys.map (counterCount n qs)).min? with _ | m
  · rw [List.min?_eq_none_iff] at hmin
    exact absurd (List.mem_map_of_mem (counterCount n qs) h0mem)
      (by simp [hmin])
  · rw [hmin] at h
    obtain ⟨hm_mem, hm_le⟩ := nat_min?_iff.mp hmin
    obtain ⟨hr_mem, hr_le⟩ := nat_min?_iff.mp h
    rw [List.mem_filter] at hr_mem
    obtain ⟨hr_keys, hr_cnt⟩ := hr_mem
    have hr_cnt' : counterCount n qs r = m := by simpa using hr_cnt
    by_contra hge
    push_neg at hge
    have hr_qs : r ∈ qs := by
      have hmem := hr_keys
      rw [hkeys] at hmem
      unfold counterKeys at hmem
      rw [List.mem_dedup, List.mem_append] at hmem
      rcases hmem with h1 | h2
      · exact absurd (List.mem_range.mp h1) (by omega)
      · exact h2
    have hr_count : m = qs.count r := by
      rw [← hr_cnt']
      unfold counterCount
      simp [Nat.not_lt.mpr hge]
    have hm1 : 1 ≤ m := by
      rw [hr_count]
      exact List.count_pos_iff.mpr hr_qs
    have hidx : ∀ i : Nat, i < n → m ≤ qs.count i := by
      intro i hi
      have hikeys : i ∈ keys := by
        rw [hkeys]
        unfold counterKeys
        rw [List.mem_dedup]
        exact List.mem_append_left _ (List.mem_range.mpr hi)
      have hile : m ≤ counterCount n qs i :=
        hm_le _ (List.mem_map_of_mem _ hikeys)
      have hne : counterCount n qs i ≠ m := by
        intro heq
        have hifilt : i ∈ keys.filter (fun k => counterCount n qs k = m) := by
          rw [List.mem_filter]
          exact ⟨hikeys, by simpa using heq⟩
        have := hr_le i hifilt
        omega
      have : counterCount n qs i = 1 + qs.count i := by
        unfold counterCount
        simp [hi]
      omega
    have hsum : (∑ a ∈ insert r (Finset.range n), qs.count a) ≤ n := by
      rw [hn]
      exact sum_count_le_length _ qs
    rw [Finset.sum_insert (by simp; omega)] at hsum
    have hlow : n * m ≤ ∑ a ∈ Finset.range n, qs.count a := by
      have := Finset.card_nsmul_le_sum (Finset.range n) (fun a => qs.count a)
        m (fun i hi => hidx i (Finset.mem_range.mp hi))
      simpa [Finset.card_range, smul_eq_mul] using this
    have : qs.count r = m := hr_count.symm
    nlinarith

/-! ## Lemmas on worker creation and recycling -/

theorem cdw_scheduler_frame (s : PoolState) (d : String) :
    (create_device_worker s d).devices = s.devices ∧
    (create_device_worker s d).max_jobs_per_worker = s.max_jobs_per_worker ∧
    (create_device_worker s d).active_jobs = s.active_jobs ∧
    (create_device_worker s d).cancelled_jobs = s.cancelled_jobs ∧
    (create_device_worker s d).finished_jobs = s.finished_jobs ∧
    (create_device_worker s d).total_jobs = s.total_jobs := by
  unfold create_device_worker
  cases alookup s.pending d <;> simp

theorem cdw_pending_of_present (s : PoolState) (d : String) (q : PQueue)
    (h : alookup s.pending d = some q) :
    (create_device_worker s d).pending = s.pending := by
  unfold create_device_worker
  rw [h]

theorem cdw_nextWorker (s : PoolState) (d : String) :
    (create_device_worker s d).nextWorker = s.nextWorker + 1 := by
  unfold create_device_worker
  cases alookup s.pending d <;> simp

theorem cdw_workers_self (s : PoolState) (d : String) :
    alookup (create_device_worker s d).workers d = some (some s.nextWorker) := by
  unfold create_device_worker
  cases alookup s.pending d <;> simp [alookup_aset_self]

theorem cdw_workers_ne (s : PoolState) (d d2 : String) (h : d2 ≠ d) :
    alookup (create_device_worker s d).workers d2 = alookup s.workers d2 := by
  unfold create_device_worker
  cases alookup s.pending d <;> simp [alookup_aset_ne _ _ _ _ h]

theorem cdw_context_self (s : PoolState) (d : String) (q : PQueue)
    (h : alookup s.pending d = some q) :
    alookup (create_device_worker s d).context d = some ⟨false, q.qid⟩ := by
  unfold create_device_worker
  rw [h]
  simp [alookup_aset_self]

theorem cdw_context_ne (s : PoolState) (d d2 : String) (h : d2 ≠ d) :
    alookup (create_device_worker s d).context d2 = alookup s.context d2 := by
  unfold create_device_worker
  cases alookup s.pending d <;> simp [alookup_aset_ne _ _ _ _ h]

theorem foldl_cdw_pending (L : List String) (s : PoolState)
    (hp : ∀ d ∈ L, (alookup s.pending d).isSome) :
    (L.foldl create_device_worker s).pending = s.pending := by
  induction L generalizing s with
  | nil => rfl
  | cons a t ih =>
    obtain ⟨q, hq⟩ := Option.isSome_iff_exists.mp (hp a (by simp))
    have hpend := cdw_pending_of_present s a q hq
    rw [List.foldl_cons,
      ih _ (fun d hd => by rw [hpend]; exact hp d (by simp [hd]))]
    exact hpend

theorem foldl_cdw_scheduler_frame (L : List String) (s : PoolState) :
    (L.foldl create_device_worker s).devices = s.devices ∧
    (L.foldl create_device_worker s).max_jobs_per_worker =
      s.max_jobs_per_worker ∧
    (L.foldl create_device_worker s).active_jobs = s.active_jobs ∧
    (L.foldl create_device_worker s).cancelled_jobs = s.cancelled_jobs ∧
    (L.foldl create_device_worker s).finished_jobs = s.finished_jobs ∧
    (L.foldl create_device_worker s).total_jobs = s.total_jobs := by
  induction L generalizing s with
  | nil => exact ⟨rfl, rfl, rfl, rfl, rfl, rfl⟩
  | cons a t ih =>
    rw [List.foldl_cons]
    obtain ⟨h1, h2, h3, h4, h5, h6⟩ := ih (create_device_worker s a)
    obtain ⟨g1, g2, g3, g4, g5, g6⟩ := cdw_scheduler_frame s a
    exact ⟨h1.trans g1, h2.trans g2, h3.trans g3, h4.trans g4,
      h5.trans g5, h6.trans g6⟩

theorem foldl_cdw_workers_not_mem (L : List String) (s : PoolState)
    (d : String) (h : d ∉ L) :
    alookup (L.foldl create_device_worker s).workers d =
      alookup s.workers d := by
  induction L generalizing s with
  | nil => rfl
  | cons a t ih =>
    rw [List.foldl_cons, ih _ (fun hd => h (by simp [hd])),
      cdw_workers_ne _ _ _ (fun hd => h (by simp [hd]))]

theorem foldl_cdw_context_not_mem (L : List String) (s : PoolState)
    (d : String) (h : d ∉ L) :
    alookup (L.foldl create_device_worker s).context d =
      alookup s.context d := by
  induction L generalizing s with
  | nil => rfl
  | cons a t ih =>
    rw [List.foldl_cons, ih _ (fun hd => h (by simp [hd])),
      cdw_context_ne _ _ _ (fun hd => h (by simp [hd]))]

theorem foldl_cdw_workers_fresh (L : List String) (s : PoolState)
    (d : String) (h : d ∈ L) :
    ∃ w, alookup (L.foldl create_device_worker s).workers d =
      some (some w) ∧ s.nextWorker ≤ w := by
  induction L generalizing s with
  | nil => cases h
  | cons a t ih =>
    rw [List.foldl_cons]
    by_cases hdt : d ∈ t
    · obtain ⟨w, hw, hle⟩ := ih (create_device_worker s a) hdt
      refine ⟨w, hw, le_trans ?_ hle⟩
      rw [cdw_nextWorker]
      omega
    · have hda : d = a := by
        rcases List.mem_cons.mp h with h1 | h2
        · exact h1
        · exact absurd h2 hdt
      subst hda
      rw [foldl_cdw_workers_not_mem t _ d hdt, cdw_workers_self]
      exact ⟨s.nextWorker, rfl, le_refl _⟩

theorem foldl_cdw_context_binding (L : List String) (s : PoolState)
    (hp : ∀ d ∈ L, (alookup s.pending d).isSome) (d : String) (hd : d ∈ L)
    (q : PQueue) (hq : alookup s.pending d = some q) :
    alookup (L.foldl create_device_worker s).context d =
      some ⟨false, q.qid⟩ := by
  induction L generalizing s with
  | nil => cases hd
  | cons a t ih =>
    rw [List.foldl_cons]
    obtain ⟨qa, hqa⟩ := Option.isSome_iff_exists.mp (hp a (by simp))
    have hpend := cdw_pending_of_present s a qa hqa
    by_cases hdt : d ∈ t
    · exact ih (create_device_worker s a)
        (fun d2 hd2 => by rw [hpend]; exact hp d2 (by simp [hd2])) hdt
        (by rw [hpend]; exact hq)
    · have hda : d = a := by
        rcases List.mem_cons.mp hd with h1 | h2
        · exact h1
        · exact absurd h2 hdt
      subst hda
      rw [foldl_cdw_context_not_mem t _ d hdt, cdw_context_self s d q hq]

theorem recycle_pending (s : PoolState)
    (hp : ∀ d ∈ s.devices, (alookup s.pending d).isSome) :
    (recycle s).pending = s.pending := by
  unfold recycle
  exact foldl_cdw_pending _ _ hp

theorem recycle_workers_fresh (s : PoolState) (d : String)
    (hd : d ∈ s.devices) :
    ∃ w, alookup (recycle s).workers d = some (some w) ∧
      s.nextWorker ≤ w := by
  unfold recycle
  exact foldl_cdw_workers_fresh _ _ _ hd

theorem recycle_context_binding (s : PoolState)
    (hp : ∀ d ∈ s.devices, (alookup s.pending d).isSome) (d : String)
    (hd : d ∈ s.devices) (q : PQueue) (hq : alookup s.pending d = some q) :
    alookup (recycle s).context d = some ⟨false, q.qid⟩ := by
  unfold recycle
  exact foldl_cdw_context_binding s.devices
    { s with workers := s.workers.map (fun p => (p.1, (none : Option Nat))) }
    hp d hd q hq

theorem recycle_scheduler_frame (s : PoolState) :
    (recycle s).devices = s.devices ∧
    (recycle s).max_jobs_per_worker = s.max_jobs_per_worker ∧
    (recycle s).active_jobs = s.active_jobs ∧
    (recycle s).cancelled_jobs = s.cancelled_jobs ∧
    (recycle s).finished_jobs = s.finished_jobs ∧
    (recycle s).total_jobs = s.total_jobs := by
  unfold recycle
  exact foldl_cdw_scheduler_frame _ _

theorem counterPick_isSome {qs : List Nat} (hq : qs ≠ []) :
    ∃ r, counterPick qs = some r := by
  unfold counterPick
  set n := qs.length with hn
  set keys := counterKeys n qs with hkeys
  have hn0 : 0 < n := List.length_pos.mpr hq
  have h0mem : 0 ∈ keys := by
    rw [hkeys]
    unfold counterKeys
    rw [List.mem_dedup]
    exact List.mem_append_left _ (List.mem_range.mpr hn0)
  rcases hmin : (keys.map (counterCount n qs)).min? with _ | m
  · rw [List.min?_eq_none_iff] at hmin
    exact absurd (List.mem_map_of_mem (counterCount n qs) h0mem)
      (by simp [hmin])
  · obtain ⟨hm_mem, _⟩ := nat_min?_iff.mp hmin
    obtain ⟨k0, hk0_mem, hk0⟩ := List.mem_map.mp hm_mem
    have hk0f : k0 ∈ keys.filter (fun k => counterCount n qs k = m) := by
      rw [List.mem_filter]
      exact ⟨hk0_mem, by simp [hk0]⟩
    rcases hmin2 : (keys.filter (fun k => counterCount n qs k = m)).min?
      with _ | r
    · rw [List.min?_eq_none_iff] at hmin2
      rw [hmin2] at hk0f
      cases hk0f
    · exact ⟨r, hmin2⟩

theorem enqueue_job_frame (s s' : PoolState) (key : String)
    (needs : Option String) (h : enqueue_job s key needs = some s') :
    s'.devices = s.devices ∧ s'.workers = s.workers ∧
    s'.context = s.context ∧ s'.active_jobs = s.active_jobs ∧
    s'.cancelled_jobs = s.cancelled_jobs ∧
    s'.finished_jobs = s.finished_jobs ∧ s'.total_jobs = s.total_jobs ∧
    s'.max_jobs_per_worker = s.max_jobs_per_worker ∧
    s'.nextWorker = s.nextWorker := by
  unfold enqueue_job at h
  split at h
  · cases h
  · split at h
    · cases h
    · split at h
      · cases h
      · split at h
        · cases h
        · cases h
          exact ⟨rfl, rfl, rfl, rfl, rfl, rfl, rfl, rfl, rfl⟩

/-! ## Claim theorems -/

/-- Claim C1, counterexample: on a pool of two devices whose pending queues
both have depth 0, `get_next_device` with no pin returns index 1, not the
lowest index 0, and accordingly the first un-pinned `submit` on a fresh
two-device pool enqueues on `gpu1` while `gpu0` stays empty.  The `Counter`
misuse makes key 0 carry count `1 + 2` (both zero-length queues are counted
as occurrences of the value 0) while key 1 keeps count 1. -/
theorem C1_equal_depth_not_lowest :
    get_next_device ["gpu0", "gpu1"] [0, 0] none = some 1 ∧
    (submit (init ["gpu0", "gpu1"] 10) "job1" none).map
        (fun s => (alookup s.pending "gpu0", alookup s.pending "gpu1")) =
      some (some ⟨0, []⟩, some ⟨1, ["job1"]⟩) := by
  constructor
  · decide
  · decide

/-- Claim C4, counterexample: with two devices whose queue lengths are 1 and
0, `get_next_device` with no pin returns index 0 — whose queue (length 1) is
strictly longer than device 1's (length 0) — so the selection is not
least-loaded. -/
theorem C4_not_least_loaded :
    get_next_device ["gpu0", "gpu1"] [1, 0] none = some 0 ∧
    List.getD [1, 0] 1 0 < List.getD [1, 0] 0 0 := by
  constructor
  · decide
  · decide

/-- Claim C9: on a pool with at least one device and one queue length per
device, `get_next_device` returns some index in `[0, number of devices)`
(the `Option.getD devices.length` reading is below `devices.length` exactly
when the result is `some i` with `i < devices.length`), with or without a
device pin, even though the `Counter` mixes queue-length values with device
indices as keys. -/
theorem C9_get_next_device_in_range (devices : List String) (qs : List Nat)
    (needs : Option String) (hne : devices ≠ [])
    (hlen : qs.length = devices.length) :
    (get_next_device devices qs needs).getD devices.length <
      devices.length := by
  have hq : qs ≠ [] := by
    intro h
    rw [h] at hlen
    exact hne (List.length_eq_zero.mp hlen.symm)
  have hpick : ∀ r, counterPick qs = some r →
      (counterPick qs).getD devices.length < devices.length := by
    intro r hr
    rw [hr]
    have := counterPick_lt_length hq hr
    rw [hlen] at this
    simpa using this
  obtain ⟨r0, hr0⟩ := counterPick_isSome hq
  cases needs with
  | none => exact hpick r0 hr0
  | some nd =>
    rw [show get_next_device devices qs (some nd)
        = (match devices.findIdx? (fun d => d = nd) with
           | some i => some i
           | none => counterPick qs) from rfl]
    cases hf : devices.findIdx? (fun d => d = nd) with
    | none => simpa using hpick r0 hr0
    | some i => simpa using findIdx?_lt_length hf

/-- Claim C9, witness: a two-device pool with queue lengths 5 and 7 and a
pin on the second device. -/
theorem C9_get_next_device_in_range_witness :
    (get_next_device ["gpu0", "gpu1"] [5, 7] (some "gpu1")).getD 2 < 2 :=
  C9_get_next_device_in_range ["gpu0", "gpu1"] [5, 7] (some "gpu1")
    (by decide) (by decide)

/-- Claim C2, counterexample: on a fresh one-device pool, `submit` leaves
the job in `gpu0`'s pending queue, yet `done` reports `(None, 0)` —
Unknown — for that submitted, pending key, not `(False, 0)` as the claim
requires for a pending key, because a pending job is not in `active_jobs`
until its first progress update. -/
theorem C2_pending_key_reports_unknown :
    (submit (init ["gpu0"] 10) "job1" none).map
        (fun s => (alookup s.pending "gpu0", done s "job1")) =
      some (some ⟨0, ["job1"]⟩, (none, 0)) := by
  decide

/-- Claim C2 (amended): `done` returns `(True, lastProgress)` when a
finished record for the key exists — the pair is `some true` together with
the progress stored in a finished record of that very key; `(False,
progress)` when no finished record exists and the key is in `active_jobs`
(it has had a progress update); and `(None, 0)` otherwise — including keys
that were submitted but are still pending with no progress update; it never
reports a key as both Unknown and Finished. -/
theorem C2_done_tristate (s : PoolState) (key : String) :
    ((∃ r ∈ s.finished_jobs, r.1 = key) →
      ∃ r ∈ s.finished_jobs, r.1 = key ∧
        done s key = (some true, r.2.1)) ∧
    ((∀ r ∈ s.finished_jobs, r.1 ≠ key) →
      ∀ d p, alookup s.active_jobs key = some (d, p) →
        done s key = (some false, p)) ∧
    ((∀ r ∈ s.finished_jobs, r.1 ≠ key) →
      alookup s.active_jobs key = none → done s key = (none, 0)) ∧
    ((done s key).1 = none → ∀ r ∈ s.finished_jobs, r.1 ≠ key) := by
  unfold done
  cases hf : s.finished_jobs.find? (fun r => r.1 = key) with
  | none =>
    have hnone : ∀ r ∈ s.finished_jobs, r.1 ≠ key := by
      intro r hr
      have := List.find?_eq_none.mp hf r hr
      simpa using this
    refine ⟨?_, ?_, ?_, ?_⟩
    · rintro ⟨r, hr, hrk⟩
      exact absurd hrk (hnone r hr)
    · intro _ d p hap
      rw [hap]
    · intro _ hap
      rw [hap]
    · intro _
      exact hnone
  | some r =>
    have hr_mem := List.mem_of_find?_eq_some hf
    have hr_key : r.1 = key := by simpa using List.find?_some hf
    refine ⟨fun _ => ⟨r, hr_mem, hr_key, rfl⟩, ?_, ?_, ?_⟩
    · intro hall d p _
      exact absurd hr_key (hall r hr_mem)
    · intro hall _
      exact absurd hr_key (hall r hr_mem)
    · intro h
      simp at h

/-- Claim C2, witness: on `doneDemoState`, the active job `b` (no finished
record) is reported `(False, 3)` by the second clause of the amended claim,
and the finished job `a`, whose only finished record carries progress 5, is
reported `(True, 5)` by the first clause. -/
theorem C2_done_tristate_witness :
    done doneDemoState "b" = (some false, 3) ∧
    done doneDemoState "a" = (some true, 5) := by
  refine ⟨(C2_done_tristate doneDemoState "b").2.1 (by decide) "gpu0" 3
    (by decide), ?_⟩
  obtain ⟨r, hr, -, hdone⟩ :=
    (C2_done_tristate doneDemoState "a").1 ⟨("a", 5, false), by decide, rfl⟩
  have hrval : r = ("a", 5, false) := by
    simpa [doneDemoState] using hr
  rw [hdone, hrval]

/-- Claim C3: a `submit` arriving when the pool-wide counter equals
`max_jobs_per_worker` (i.e. the call right after `max_jobs_per_worker`
submissions) triggers a recycle — every configured device gets a different
worker process — and leaves the counter reset to zero, while a `submit`
arriving below the threshold leaves every worker in place and just
increments the counter.  The freshness hypothesis says live worker ids were
allotted below the pool's id counter, which holds for every reachable
pool. -/
theorem C3_submit_recycle_threshold (s s' : PoolState) (key d : String)
    (needs : Option String)
    (hfresh : ∀ d2 w, alookup s.workers d2 = some (some w) →
      w < s.nextWorker)
    (hd : d ∈ s.devices)
    (hsub : submit s key needs = some s') :
    (s.total_jobs = s.max_jobs_per_worker →
      s'.total_jobs = 0 ∧ alookup s'.workers d ≠ alookup s.workers d) ∧
    (s.total_jobs < s.max_jobs_per_worker →
      s'.total_jobs = s.total_jobs + 1 ∧ s'.workers = s.workers) := by
  unfold submit at hsub
  split at hsub
  case isTrue hc =>
    obtain ⟨-, hwork, -, -, -, -, htot, -, -⟩ :=
      enqueue_job_frame _ _ _ _ hsub
    constructor
    · intro ht
      refine ⟨by rw [htot], ?_⟩
      obtain ⟨w', hw'eq, hw'ge⟩ :=
        recycle_workers_fresh { s with total_jobs := s.total_jobs + 1 } d hd
      have hge : s.nextWorker ≤ w' := hw'ge
      rw [hwork]
      rw [show ({ recycle { s with total_jobs := s.total_jobs + 1 } with
            total_jobs := 0 } : PoolState).workers
          = (recycle { s with total_jobs := s.total_jobs + 1 }).workers
          from rfl]
      rw [hw'eq]
      intro hcontra
      have := hfresh d w' hcontra.symm
      omega
    · intro ht
      exact absurd hc (by omega)
  case isFalse hc =>
    obtain ⟨-, hwork, -, -, -, -, htot, -, -⟩ :=
      enqueue_job_frame _ _ _ _ hsub
    constructor
    · intro ht
      exact absurd (by omega : s.total_jobs + 1 > s.max_jobs_per_worker) hc
    · intro ht
      exact ⟨by rw [htot], by rw [hwork]⟩

/-- Claim C3, witness: a one-device pool with threshold 0 and counter 0;
the next `submit` recycles (the worker changes) and the counter stays 0. -/
theorem C3_submit_recycle_threshold_witness :
    (⟨["gpu0"], 0, [("gpu0", ⟨false, 0⟩)], [("gpu0", ⟨0, ["a"]⟩)],
        [("gpu0", some 1)], [], [], [], 0, 2, 1⟩ : PoolState).total_jobs
      = 0 ∧
    alookup (⟨["gpu0"], 0, [("gpu0", ⟨false, 0⟩)],
        [("gpu0", ⟨0, ["a"]⟩)], [("gpu0", some 1)], [], [], [], 0, 2, 1⟩ :
        PoolState).workers "gpu0"
      ≠ alookup (init ["gpu0"] 0).workers "gpu0" :=
  (C3_submit_recycle_threshold (init ["gpu0"] 0)
    ⟨["gpu0"], 0, [("gpu0", ⟨false, 0⟩)], [("gpu0", ⟨0, ["a"]⟩)],
      [("gpu0", some 1)], [], [], [], 0, 2, 1⟩ "a" "gpu0" none
    (by
      intro d2 w h
      by_cases hd2 : ("gpu0" : String) = d2
      · simp [init, create_device_worker, aset, alookup, List.find?, hd2]
          at h
        simp [← h]
        decide
      · simp [init, create_device_worker, aset, alookup, List.find?, hd2]
          at h)
    (by decide) (by decide)).1 rfl

/-- Claim C5: cancelling a key that is not yet active records the key in
the cancellation-request set, returns true, and changes nothing else — the
pending queues, the contexts (hence every device's cancel flag) and the
active map are exactly those of the original state — and a device's cancel
flag after the progress listener processes a message `(job, device, value)`
is true exactly when the job was in the cancellation-request set (or the
flag was already set), which for a freshly cancelled pending key means the
flag is set at its first progress message. -/
theorem C5_cancel_pending_cooperative (s : PoolState)
    (key job device : String) (value : Nat) (ctx : WorkerContext)
    (hkey : alookup s.active_jobs key = none)
    (hctx : alookup s.context device = some ctx) :
    cancel s key =
      some ({ s with cancelled_jobs := s.cancelled_jobs ++ [key] }, true) ∧
    alookup (progress_step
        { s with cancelled_jobs := s.cancelled_jobs ++ [key] }
        job device value).context device =
      some ⟨(if job ∈ s.cancelled_jobs ++ [key] then true
             else ctx.cancelFlag),
        ctx.pendingQid⟩ := by
  constructor
  · unfold cancel
    rw [hkey]
  · unfold progress_step
    by_cases hmem : job ∈ s.cancelled_jobs ++ [key]
    · rw [if_pos hmem]
      have hctx1 : alookup
          ({ s with cancelled_jobs := s.cancelled_jobs ++ [key] } :
            PoolState).context device = some ctx := hctx
      rw [hctx1, if_pos hmem]
      exact alookup_aset_self _ _ _
    · rw [if_neg hmem]
      have hctx1 : alookup
          ({ s with cancelled_jobs := s.cancelled_jobs ++ [key] } :
            PoolState).context device = some ctx := hctx
      rw [if_neg hmem]
      exact hctx1

/-- Claim C5, witness: on `cancelDemoState`, whose job `a` is queued but
not active, cancelling `a` only records the request, and the first progress
message for `a` sets `gpu0`'s cancel flag. -/
theorem C5_cancel_pending_cooperative_witness :
    cancel cancelDemoState "a" =
      some ({ cancelDemoState with cancelled_jobs := [] ++ ["a"] }, true) ∧
    alookup (progress_step
        { cancelDemoState with cancelled_jobs := [] ++ ["a"] }
        "a" "gpu0" 1).context "gpu0" =
      some ⟨(if "a" ∈ ([] : List String) ++ ["a"] then true else false),
        0⟩ :=
  C5_cancel_pending_cooperative cancelDemoState "a" "a" "gpu0" 1
    ⟨false, 0⟩ (by decide) (by decide)

/-- Claim C6: on a finished message for a key that never reached
`active_jobs`, the listener neither raises nor records anything: the lookup
`self.active_jobs[job]` raises `KeyError` before the append, the generic
handler swallows it, and the state — in particular `finished_jobs` — is
left exactly as it was, so no record with progress 0 is appended (the claim
requires one). -/
theorem C6_finished_unknown_key_drops_record :
    finished_step (init ["gpu0"] 10) "job1" "gpu0" = init ["gpu0"] 10 ∧
    (finished_step (init ["gpu0"] 10) "job1" "gpu0").finished_jobs = [] := by
  constructor
  · decide
  · decide

/-- Claim C7, counterexample: after N = 1 submission and M = 0 completions
on a fresh one-device pool, `status()` returns 0 entries, not 1 (a pending
job is in neither map); and once the job produces a progress update,
`status()` raises `ValueError` (modelled `none`) because the comprehension
unpacks the 2-tuple items of `active_jobs` into three names. -/
theorem C7_status_miscounts :
    (submit (init ["gpu0"] 10) "job1" none).map status = some (some []) ∧
    (submit (init ["gpu0"] 10) "job1" none).map
        (fun s => status (progress_step s "job1" "gpu0" 1)) =
      some none := by
  constructor
  · decide
  · decide

/-- Claim C8: when every configured device has a pending queue (true from
construction on), `recycle` leaves the pending map — device names, queue
identities and queued jobs — exactly as it was, and for every configured
device the worker entry afterwards is a live process different from the one
before, whose fresh context is bound (by queue identity) to that device's
existing queue. -/
theorem C8_recycle_keeps_queues_replaces_workers (s : PoolState)
    (d : String) (q : PQueue)
    (hp : ∀ d2 ∈ s.devices, (alookup s.pending d2).isSome)
    (hfresh : ∀ d2 w, alookup s.workers d2 = some (some w) →
      w < s.nextWorker)
    (hd : d ∈ s.devices) (hq : alookup s.pending d = some q) :
    (recycle s).pending = s.pending ∧
    isLiveWorker (alookup (recycle s).workers d) = true ∧
    alookup (recycle s).workers d ≠ alookup s.workers d ∧
    alookup (recycle s).context d = some ⟨false, q.qid⟩ := by
  obtain ⟨w', hw'eq, hw'ge⟩ := recycle_workers_fresh s d hd
  refine ⟨recycle_pending s hp, ?_, ?_,
    recycle_context_binding s hp d hd q hq⟩
  · rw [hw'eq]
    rfl
  · rw [hw'eq]
    intro hcontra
    have := hfresh d w' hcontra.symm
    omega

/-- Claim C8, witness: recycling `recycleDemoState` keeps its two queued
jobs on the same queue while swapping the `gpu0` worker. -/
theorem C8_recycle_keeps_queues_replaces_workers_witness :
    (recycle recycleDemoState).pending = recycleDemoState.pending ∧
    isLiveWorker (alookup (recycle recycleDemoState).workers "gpu0")
      = true ∧
    alookup (recycle recycleDemoState).workers "gpu0"
      ≠ alookup recycleDemoState.workers "gpu0" ∧
    alookup (recycle recycleDemoState).context "gpu0" =
      some ⟨false, 0⟩ :=
  C8_recycle_keeps_queues_replaces_workers recycleDemoState "gpu0"
    ⟨0, ["a", "b"]⟩ (by decide)
    (by
      intro d2 w h
      by_cases hd2 : ("gpu0" : String) = d2
      · simp [recycleDemoState, alookup, List.find?, hd2] at h
        simp [← h]
        decide
      · simp [recycleDemoState, alookup, List.find?, hd2] at h)
    (by decide) (by decide)

/-- Claim C10: the cancellation flag is shared per device, not per job:
after `cancel(keyA)` sets device `d`'s flag (because `keyA` is active on
`d`), the finished listener records any job `k` active on `d` as cancelled,
since the finished record stores the value of `d`'s shared flag at
processing time. -/
theorem C10_cancel_flag_shared_per_device (s s1 : PoolState)
    (keyA k d : String) (pA p : Nat) (ctx : WorkerContext)
    (hA : alookup s.active_jobs keyA = some (d, pA))
    (hctx : alookup s.context d = some ctx)
    (hk : alookup s.active_jobs k = some (d, p))
    (hcan : cancel s keyA = some (s1, true)) :
    (finished_step s1 k d).finished_jobs =
      s.finished_jobs ++ [(k, p, true)] := by
  have hcval : cancel s keyA = some ({ s with
      cancelled_jobs := s.cancelled_jobs ++ [keyA]
      context := aset s.context d ctx.set_cancel }, true) := by
    unfold cancel
    rw [hA]
    simp only [hctx]
  rw [hcval] at hcan
  simp only [Option.some.injEq, Prod.mk.injEq] at hcan
  obtain ⟨hs1, -⟩ := hcan
  subst hs1
  unfold finished_step
  have hctx1 : alookup ({ s with
      cancelled_jobs := s.cancelled_jobs ++ [keyA]
      context := aset s.context d ctx.set_cancel } : PoolState).context d
      = some ctx.set_cancel := alookup_aset_self _ _ _
  rw [hctx1]
  have hk1 : alookup ({ s with
      cancelled_jobs := s.cancelled_jobs ++ [keyA]
      context := aset s.context d ctx.set_cancel } : PoolState).active_jobs
      k = some (d, p) := hk
  rw [hk1]
  rfl

/-- Claim C10, witness: in `sharedFlagDemoState`, cancelling `A` sets
`gpu0`'s shared flag, and the unrelated job `k` finishing on `gpu0` is
recorded as cancelled with its own progress 5. -/
theorem C10_cancel_flag_shared_per_device_witness :
    (finished_step sharedFlagDemoState1 "k" "gpu0").finished_jobs =
      [] ++ [("k", 5, true)] :=
  C10_cancel_flag_shared_per_device sharedFlagDemoState
    sharedFlagDemoState1 "A" "k" "gpu0" 2 5 ⟨false, 0⟩
    (by decide) (by decide) (by decide) (by decide)

end OnnxWebPool
